import Mathlib

/-
Verification of the numerical core of the `graphicentropy` repository
(`src/entropy.py`, `src/graphentropia.py`).

The Evaluator functions (Boltzmann energy density, Maxwell-Boltzmann speed
density, Stefan-Boltzmann power, radiated energy) are embedded over `ℝ`,
with Python float arithmetic modelled as exact real arithmetic and `**`
with a non-integer exponent modelled as real `rpow`.  The Normalizer
pipeline of `plot_energy_fraction` (trapezoidal total, normalization with
its degenerate-integral guard, cumulative construction, percentile lookup)
works pointwise on sampled arrays, and is embedded computably over lists
of `ℚ`.
-/

namespace Graphentropia

open Real

/-- Boltzmann constant `k = 1.380649e-23` (J/K), `src/entropy.py` line 10 and
`src/graphentropia.py` line 11, as an exact rational value of `ℝ`. -/
noncomputable def k : ℝ := 1380649 / 10 ^ 29

/-- Stefan-Boltzmann constant `sigma = 5.670374419e-8` (W/m²K⁴),
`src/entropy.py` line 35 and `src/graphentropia.py` line 185. -/
noncomputable def sigma : ℝ := 5670374419 / 10 ^ 17

/-- The coefficient `coeff = (2.0 / np.sqrt(pi)) * (1.0 / (k * T) ** 1.5)` of
`boltzmann_energy_dist`, `src/entropy.py` line 19 (identically
`src/graphentropia.py` line 18). -/
noncomputable def boltzmann_coeff (T : ℝ) : ℝ :=
  2 / sqrt π * (1 / (k * T) ^ (1.5 : ℝ))

/-- Shallow embedding of `boltzmann_energy_dist(E, T)`, `src/entropy.py`
lines 12–20 (the same formula as `boltzmann_distribution`,
`src/graphentropia.py` lines 15–19): `coeff * np.sqrt(E) * np.exp(-E / (k * T))`. -/
noncomputable def boltzmann_energy_dist (E T : ℝ) : ℝ :=
  boltzmann_coeff T * sqrt E * exp (-E / (k * T))

/-- Shallow embedding of `maxwell_boltzmann_speed_dist(v, T, m)`,
`src/entropy.py` lines 23–31:
`pref = 4.0 * pi * (m / (2.0 * pi * k * T)) ** 1.5`, result
`pref * v ** 2 * np.exp(-m * v ** 2 / (2.0 * k * T))`. -/
noncomputable def maxwell_boltzmann_speed_dist (v T m : ℝ) : ℝ :=
  4 * π * (m / (2 * π * k * T)) ^ (1.5 : ℝ) * v ^ 2 *
    exp (-m * v ^ 2 / (2 * k * T))

/-- Shallow embedding of `stefan_boltzmann_power(T, A, emissivity)`,
`src/entropy.py` lines 34–36 (identically `src/graphentropia.py`
lines 187–188): `emissivity * sigma * A * T ** 4`. -/
noncomputable def stefan_boltzmann_power (T A emissivity : ℝ) : ℝ :=
  emissivity * sigma * A * T ^ 4

/-- Shallow embedding of `energia_total_radiada_numeric(T1, T2, A, emissivity)`,
`src/entropy.py` lines 39–42 (identically `energia_total_radiada`,
`src/graphentropia.py` lines 190–193).  The `scipy.integrate.quad` call on the
integrand `emissivity * sigma * A * T ** 4` is modelled as the exact definite
integral of that integrand over `[T1, T2]`. -/
noncomputable def energia_total_radiada_numeric (T1 T2 A emissivity : ℝ) : ℝ :=
  ∫ T in T1..T2, emissivity * sigma * A * T ^ 4

/-- Closed form of the radiated energy, following the spec's words:
`(emissivity·σ·area/5)·(T2⁵ − T1⁵)`.  Used to compare the quadrature
embedding against the spec's reference expression. -/
noncomputable def radiatedEnergy_closed_form (T1 T2 A emissivity : ℝ) : ℝ :=
  emissivity * sigma * A / 5 * (T2 ^ 5 - T1 ^ 5)

/-- The spec's formula for the energy density, following the spec's words:
`(2/√π) · (kT)^(-1.5) · √E · exp(−E/kT)`.  Used to compare the code's
`boltzmann_energy_dist` against the spec's reference expression. -/
noncomputable def spec_energyDensity (E T : ℝ) : ℝ :=
  2 / sqrt π * (k * T) ^ (-1.5 : ℝ) * sqrt E * exp (-(E / (k * T)))

/-- Shallow embedding of the inner, log-space `boltzmann_distribution` of
`plot_energy_fraction`, `src/graphentropia.py` lines 118–124:
`log_coeff = np.log(2 / np.sqrt(np.pi)) + 1.5 * np.log(1 / (k * T))`,
`log_val = log_coeff + 0.5 * np.log(E) - E / (k * T)`, result `np.exp(log_val)`. -/
noncomputable def boltzmann_distribution_log (E T : ℝ) : ℝ :=
  exp (log (2 / sqrt π) + 1.5 * log (1 / (k * T)) + 0.5 * log E - E / (k * T))

/-- Trapezoidal rule `np.trapezoid(f, x)` as called at `src/graphentropia.py`
line 135: the sum over consecutive grid points of `(fᵢ + fᵢ₊₁)/2 · (xᵢ₊₁ − xᵢ)`.
First argument is the grid `x`, second the sampled densities `f`; float
arithmetic is modelled exactly over `ℚ`. -/
def trapezoid : List ℚ → List ℚ → ℚ
  | x0 :: x1 :: xs, f0 :: f1 :: fs =>
      (f0 + f1) / 2 * (x1 - x0) + trapezoid (x1 :: xs) (f1 :: fs)
  | _, _ => 0

/-- Shallow embedding of the normalization step of `plot_energy_fraction`,
`src/graphentropia.py` lines 135–143: `total_integral = np.trapezoid(f_E, E_values)`;
if `total_integral <= 0` the function reports an error and returns without a
value (the spec's `DegenerateIntegral` failure, modelled as `none`); otherwise
the normalized densities `f_E / total_integral` are produced together with the
total. -/
def normalize (grid raw : List ℚ) : Option (List ℚ × ℚ) :=
  let total := trapezoid grid raw
  if total ≤ 0 then none
  else some (raw.map (fun d => d / total), total)

/-- The per-segment areas `f_E_normalized[:-1] * np.diff(E_values)` of
`src/graphentropia.py` line 146: left-endpoint density times grid spacing,
one entry per grid segment. -/
def leftAreas : List ℚ → List ℚ → List ℚ
  | x0 :: x1 :: xs, f0 :: fs => f0 * (x1 - x0) :: leftAreas (x1 :: xs) fs
  | _, _ => []

/-- Shallow embedding of the cumulative construction of `plot_energy_fraction`,
`src/graphentropia.py` lines 146–147:
`cumulative = np.cumsum(f_E_normalized[:-1] * np.diff(E_values))` followed by
`np.insert(cumulative, 0, 0)`, i.e. the 0-prefixed running sums of the
left-rectangle segment areas. -/
def cumulative (grid f : List ℚ) : List ℚ :=
  List.scanl (fun s a => s + a) 0 (leftAreas grid f)

/-- The trapezoidal per-segment areas `(fᵢ + fᵢ₊₁)/2 · (xᵢ₊₁ − xᵢ)`, used to
state the spec's reference cumulative. -/
def trapAreas : List ℚ → List ℚ → List ℚ
  | x0 :: x1 :: xs, f0 :: f1 :: fs =>
      (f0 + f1) / 2 * (x1 - x0) :: trapAreas (x1 :: xs) (f1 :: fs)
  | _, _ => []

/-- Running trapezoidal sum following the spec's words for `cumulative`:
first element 0, each subsequent element adds the trapezoid area of the
preceding segment.  Used to compare the code's `cumulative` against the
spec's reference construction. -/
def cumulative_trapezoidal (grid f : List ℚ) : List ℚ :=
  List.scanl (fun s a => s + a) 0 (trapAreas grid f)

/-- Helper for `argminAbs`: fold over the remaining values keeping the first
index attaining the least distance `|v − frac|` seen so far (strict comparison,
so ties keep the earlier index, as `np.argmin` does). -/
def argminAbsAux (frac : ℚ) : List ℚ → ℕ → ℕ → ℚ → ℕ
  | [], _, best, _ => best
  | v :: vs, i, best, bestd =>
      if |v - frac| < bestd then argminAbsAux frac vs (i + 1) i (|v - frac|)
      else argminAbsAux frac vs (i + 1) best bestd

/-- Shallow embedding of `np.argmin(np.abs(cumulative - frac))` from
`src/graphentropia.py` line 168: the first index of the cumulative sequence
minimizing the absolute distance to the target fraction. -/
def argminAbs (c : List ℚ) (frac : ℚ) : ℕ :=
  match c with
  | [] => 0
  | v :: vs => argminAbsAux frac vs 1 0 (|v - frac|)

/-- Shallow embedding of the percentile marking of `plot_energy_fraction`,
`src/graphentropia.py` lines 167–169: the marked x is `E_values[idx]` with
`idx = np.argmin(np.abs(cumulative - frac))`. -/
def percentileCrossing (grid c : List ℚ) (frac : ℚ) : ℚ :=
  grid.getD (argminAbs c frac) 0

/-- Lower-bound crossing following the spec's words for `percentileCrossing`:
the x at the first index whose cumulative fraction reaches or exceeds the
target fraction.  Used to compare the code's nearest-point lookup against the
spec's mandated behaviour. -/
def lowerBoundCrossing (grid c : List ℚ) (frac : ℚ) : ℚ :=
  grid.getD (c.findIdx (fun v => decide (frac ≤ v))) 0


/-! ### Helper lemmas about the list pipeline -/

/-- The trapezoidal total of an all-zero density sequence is `0`. -/
theorem trapezoid_of_zeros :
    ∀ (x f : List ℚ), (∀ d ∈ f, d = 0) → trapezoid x f = 0
  | [], _, _ => rfl
  | [_], _, _ => rfl
  | _ :: _ :: _, [], _ => rfl
  | _ :: _ :: _, [_], _ => rfl
  | x0 :: x1 :: xs, f0 :: f1 :: fs, hf => by
      rw [trapezoid,
        trapezoid_of_zeros (x1 :: xs) (f1 :: fs) (fun d hd => hf d (List.mem_cons_of_mem _ hd)),
        hf f0 (by simp), hf f1 (by simp)]
      ring

/-- Length of the left-rectangle segment-area list. -/
theorem leftAreas_length :
    ∀ (x f : List ℚ), (leftAreas x f).length = min (x.length - 1) f.length
  | [], f => by simp [leftAreas]
  | [x0], f => by simp [leftAreas]
  | x0 :: x1 :: xs, [] => by simp [leftAreas]
  | x0 :: x1 :: xs, f0 :: fs => by
      simp [leftAreas, leftAreas_length (x1 :: xs) fs]
      omega

/-- Entry `i` of the left-rectangle segment-area list is
`f i * (x (i+1) - x i)`. -/
theorem leftAreas_getD :
    ∀ (x f : List ℚ) (i : ℕ), i + 1 < x.length → i < f.length →
      (leftAreas x f).getD i 0 = f.getD i 0 * (x.getD (i + 1) 0 - x.getD i 0)
  | [], _, i, hx, _ => absurd hx (by simp)
  | [_], _, i, hx, _ => by simp at hx
  | _ :: _ :: _, [], i, _, hf => absurd hf (by simp)
  | x0 :: x1 :: xs, f0 :: fs, 0, _, _ => by simp [leftAreas]
  | x0 :: x1 :: xs, f0 :: fs, i + 1, hx, hf => by
      have ih := leftAreas_getD (x1 :: xs) fs i (by simpa using hx) (by simpa using hf)
      simpa [leftAreas] using ih

/-- A running sum starts at its initial value. -/
theorem scanl_add_getD_zero (l : List ℚ) (b : ℚ) :
    (List.scanl (fun s a => s + a) b l).getD 0 0 = b := by
  cases l <;> simp [List.scanl]

/-- Each entry of a running sum adds the corresponding list entry to the
previous running value. -/
theorem scanl_add_getD :
    ∀ (l : List ℚ) (b : ℚ) (i : ℕ), i < l.length →
      (List.scanl (fun s a => s + a) b l).getD (i + 1) 0 =
        (List.scanl (fun s a => s + a) b l).getD i 0 + l.getD i 0
  | [], _, i, hi => absurd hi (by simp)
  | a :: l, b, 0, _ => by simp [List.scanl, scanl_add_getD_zero]
  | a :: l, b, i + 1, hi => by
      have ih := scanl_add_getD l (b + a) i (by simpa using hi)
      simpa [List.scanl] using ih

/-- The optional head of a running sum is its initial value. -/
theorem scanl_add_head? (b : ℚ) (l : List ℚ) :
    (List.scanl (fun s a => s + a) b l).head? = some b := by
  cases l <;> simp [List.scanl]

/-- A running sum of non-negative increments is monotonically non-decreasing
and bounded below by its initial value. -/
theorem scanl_add_chain_nonneg :
    ∀ (l : List ℚ) (b : ℚ), (∀ a ∈ l, 0 ≤ a) →
      List.Chain' (fun p q => p ≤ q) (List.scanl (fun s a => s + a) b l) ∧
        ∀ c ∈ List.scanl (fun s a => s + a) b l, b ≤ c
  | [], b, _ => by simp
  | a :: l, b, h => by
      have ha : 0 ≤ a := h a (by simp)
      have ih := scanl_add_chain_nonneg l (b + a) (fun y hy => h y (by simp [hy]))
      rw [List.scanl]
      constructor
      · rw [List.chain'_cons']
        refine ⟨fun y hy => ?_, ih.1⟩
        rw [scanl_add_head?] at hy
        simp only [Option.mem_def, Option.some.injEq] at hy
        subst hy
        linarith
      · intro c hc
        rcases List.mem_cons.mp hc with h1 | h1
        · exact le_of_eq h1.symm
        · linarith [ih.2 c h1]

/-- Over a strictly increasing grid, left-rectangle areas of non-negative
densities are non-negative. -/
theorem leftAreas_nonneg :
    ∀ (x f : List ℚ), List.Chain' (fun p q => p < q) x → (∀ d ∈ f, 0 ≤ d) →
      ∀ a ∈ leftAreas x f, 0 ≤ a
  | [], _, _, _ => by simp [leftAreas]
  | [_], _, _, _ => by simp [leftAreas]
  | _ :: _ :: _, [], _, _ => by simp [leftAreas]
  | x0 :: x1 :: xs, f0 :: fs, hx, hf => by
      have h01 : x0 < x1 := (List.chain'_cons.mp hx).1
      have hx' : List.Chain' (fun p q => p < q) (x1 :: xs) := (List.chain'_cons.mp hx).2
      have ih := leftAreas_nonneg (x1 :: xs) fs hx' (fun d hd => hf d (by simp [hd]))
      intro a ha
      rw [leftAreas] at ha
      rcases List.mem_cons.mp ha with h1 | h1
      · subst h1
        exact mul_nonneg (hf f0 (by simp)) (sub_pos.mpr h01).le
      · exact ih a h1

/-! ### Claim theorems -/

/-- Claim C1: the code's percentile lookup is NOT the lower-bound crossing the
claim describes.  On the monotone cumulative sequence `[0, 2/5, 1]` over grid
`[0, 1, 2]` with target fraction `1/2`, the code's nearest-point lookup
(`np.argmin` of the absolute distance) returns `x = 1`, whose cumulative
fraction `2/5` has not reached the target, while the first index reaching the
target (the claim's lower-bound semantics) gives `x = 2`. -/
theorem percentileCrossing_not_lower_bound :
    percentileCrossing [0, 1, 2] [0, 2/5, 1] (1/2) = 1 ∧
      ([0, 2/5, 1] : List ℚ).getD 1 0 < 1/2 ∧
      lowerBoundCrossing [0, 1, 2] [0, 2/5, 1] (1/2) = 2 ∧
      percentileCrossing [0, 1, 2] [0, 2/5, 1] (1/2) ≠
        lowerBoundCrossing [0, 1, 2] [0, 2/5, 1] (1/2) := by
  norm_num [percentileCrossing, lowerBoundCrossing, argminAbs, argminAbsAux,
    List.findIdx, List.findIdx.go, List.getD, abs]

/-- Claim C2 counterexample: for the increasing grid `[0, 1]` and normalized
densities `[2, 0]` (trapezoid total `1`), the code's cumulative is the
left-rectangle running sum `[0, 2]`, which differs from the running
trapezoidal sum `[0, 1]` the claim describes. -/
theorem cumulative_not_trapezoidal :
    trapezoid [0, 1] [2, 0] = 1 ∧
      cumulative [0, 1] [2, 0] = [0, 2] ∧
      cumulative_trapezoidal [0, 1] [2, 0] = [0, 1] ∧
      cumulative [0, 1] [2, 0] ≠ cumulative_trapezoidal [0, 1] [2, 0] := by
  norm_num [trapezoid, cumulative, cumulative_trapezoidal, leftAreas, trapAreas, List.scanl]

/-- Claim C2 (amended): the cumulative operation produces the 0-prefixed
running LEFT-rectangle sum of the normalized densities: it has one entry per
grid point, its first entry is 0, and each subsequent entry adds
`f i * (x (i+1) - x i)`, the rectangle area of the preceding segment. -/
theorem cumulative_left_rectangle (x f : List ℚ) (hlen : x.length = f.length)
    (hx : 0 < x.length) :
    (cumulative x f).length = x.length ∧
      (cumulative x f).getD 0 0 = 0 ∧
      ∀ i : ℕ, i + 1 < x.length →
        (cumulative x f).getD (i + 1) 0 =
          (cumulative x f).getD i 0 + f.getD i 0 * (x.getD (i + 1) 0 - x.getD i 0) := by
  refine ⟨?_, ?_, ?_⟩
  · rw [cumulative, List.length_scanl, leftAreas_length]
    omega
  · exact scanl_add_getD_zero _ _
  · intro i hi
    have hil : i < (leftAreas x f).length := by
      rw [leftAreas_length]; omega
    rw [cumulative, scanl_add_getD (leftAreas x f) 0 i hil,
      leftAreas_getD x f i hi (by omega)]

/-- Witness for the amended claim C2 at grid `[0, 1, 2]`, densities `[3, 4, 5]`. -/
theorem cumulative_left_rectangle_witness :
    ([0, 1, 2] : List ℚ).length = ([3, 4, 5] : List ℚ).length ∧
      0 < ([0, 1, 2] : List ℚ).length ∧
      ((cumulative [0, 1, 2] [3, 4, 5]).length = ([0, 1, 2] : List ℚ).length ∧
        (cumulative [0, 1, 2] [3, 4, 5]).getD 0 0 = 0 ∧
        ∀ i : ℕ, i + 1 < ([0, 1, 2] : List ℚ).length →
          (cumulative [0, 1, 2] [3, 4, 5]).getD (i + 1) 0 =
            (cumulative [0, 1, 2] [3, 4, 5]).getD i 0 +
              ([3, 4, 5] : List ℚ).getD i 0 *
                (([0, 1, 2] : List ℚ).getD (i + 1) 0 - ([0, 1, 2] : List ℚ).getD i 0)) :=
  ⟨rfl, by norm_num, cumulative_left_rectangle [0, 1, 2] [3, 4, 5] rfl (by norm_num)⟩

/-- Claim C3: `normalize` fails (the `DegenerateIntegral` report, modelled as
`none`) exactly when the trapezoidal total is `≤ 0` — in particular whenever
every raw density is `0` — and on success it returns precisely the raw
densities divided by the (strictly positive) total, together with the total;
in the degenerate case nothing is returned, so no undefined or silently
all-zero output is produced.  (Non-finite totals do not arise in the
exact-arithmetic embedding.) -/
theorem normalize_degenerate_iff (grid raw : List ℚ) :
    (normalize grid raw = none ↔ trapezoid grid raw ≤ 0) ∧
      ((∀ d ∈ raw, d = 0) → normalize grid raw = none) ∧
      ∀ nd t, normalize grid raw = some (nd, t) →
        0 < t ∧ t = trapezoid grid raw ∧ nd = raw.map (fun d => d / t) := by
  refine ⟨?_, ?_, ?_⟩
  · by_cases h : trapezoid grid raw ≤ 0 <;> simp [normalize, h]
  · intro hz
    have h0 := trapezoid_of_zeros grid raw hz
    simp [normalize, h0]
  · intro nd t hsome
    by_cases h : trapezoid grid raw ≤ 0
    · simp [normalize, h] at hsome
    · have hlt : 0 < trapezoid grid raw := lt_of_not_le h
      simp only [normalize, if_neg h, Option.some.injEq, Prod.mk.injEq] at hsome
      obtain ⟨h1, h2⟩ := hsome
      subst h2
      exact ⟨hlt, rfl, h1.symm⟩

/-- Witness for claim C3: on the all-underflow (all-zero) density sequence the
normalization fails. -/
theorem normalize_degenerate_iff_witness :
    Graphentropia.normalize [0, 1] [0, 0] = none :=
  (normalize_degenerate_iff [0, 1] [0, 0]).2.1 (by simp)

/-- Claim C4 counterexample: with temperature `T = -1 ≤ 0` the Evaluator
functions do not fail — they return the numeric value `0` at the zero domain
point; no `InvalidParameter` failure path exists in the code. -/
theorem evaluator_returns_value_for_nonpositive_T :
    boltzmann_energy_dist 0 (-1) = 0 ∧ maxwell_boltzmann_speed_dist 0 (-1) 1 = 0 := by
  constructor
  · unfold boltzmann_energy_dist; simp
  · unfold maxwell_boltzmann_speed_dist; ring_nf

/-- Claim C4 (amended): the Evaluator performs no temperature validation and
never reports the claimed `InvalidParameter` — a call with a negative
temperature `T < 0` still returns a numeric value; at the zero domain point
both densities return `0` for every `T < 0` and every mass.  (At the `T = 0`
boundary the source instead aborts with an uncaught `ZeroDivisionError` from
`1.0 / (k*T) ** 1.5` resp. `m / (2.0*pi*k*T)` — likewise not
`InvalidParameter` — a path outside this real-arithmetic embedding, so the
theorem is stated for strictly negative `T` only.) -/
theorem evaluator_total_on_negative_T (T m : ℝ) (_hT : T < 0) :
    boltzmann_energy_dist 0 T = 0 ∧ maxwell_boltzmann_speed_dist 0 T m = 0 := by
  constructor
  · unfold boltzmann_energy_dist; simp
  · unfold maxwell_boltzmann_speed_dist; ring_nf

/-- Witness for the amended claim C4 at `T = -1`, `m = 1`. -/
theorem evaluator_total_on_negative_T_witness :
    (-1 : ℝ) < 0 ∧
      (boltzmann_energy_dist 0 (-1) = 0 ∧ maxwell_boltzmann_speed_dist 0 (-1) 1 = 0) :=
  ⟨by norm_num, evaluator_total_on_negative_T (-1) 1 (by norm_num)⟩

/-- Claim C6: for `E ≥ 0` and `T > 0` the code's `boltzmann_energy_dist`
equals the spec's formula `(2/√π)·(kT)^(-1.5)·√E·exp(−E/kT)`, and at `E = 0`
the density is `0`. -/
theorem boltzmann_energy_dist_matches_spec :
    (∀ E T : ℝ, 0 ≤ E → 0 < T →
        boltzmann_energy_dist E T = spec_energyDensity E T) ∧
      ∀ T : ℝ, 0 < T → boltzmann_energy_dist 0 T = 0 := by
  constructor
  · intro E T _hE hT
    have hkT : (0:ℝ) < k * T := by
      have hk : (0:ℝ) < k := by norm_num [k]
      positivity
    unfold boltzmann_energy_dist boltzmann_coeff spec_energyDensity
    rw [Real.rpow_neg hkT.le, neg_div]
    ring
  · intro T _hT
    unfold boltzmann_energy_dist
    simp

/-- Witness for claim C6 at `E = 0`, `T = 1`. -/
theorem boltzmann_energy_dist_matches_spec_witness :
    (0:ℝ) ≤ 0 ∧ (0:ℝ) < 1 ∧
      boltzmann_energy_dist 0 1 = spec_energyDensity 0 1 ∧
      boltzmann_energy_dist 0 1 = 0 :=
  ⟨le_refl 0, one_pos, boltzmann_energy_dist_matches_spec.1 0 1 (le_refl 0) one_pos,
    boltzmann_energy_dist_matches_spec.2 1 one_pos⟩

/-- Claim C7 counterexample: the grid `[0, 2]` is increasing, the densities
`[1, 0]` are non-negative and normalized (the code's own `normalize` accepts
them unchanged with total `1`), yet the code's cumulative is `[0, 2]`: its
last element `2` exceeds `1`, so the cumulative is neither bounded in `[0, 1]`
nor does it end at `1` within the `1e-3` tolerance. -/
theorem cumulative_exceeds_one :
    Graphentropia.normalize [0, 2] [1, 0] = some ([1, 0], 1) ∧
      cumulative [0, 2] [1, 0] = [0, 2] ∧
      ¬(cumulative [0, 2] [1, 0]).getD 1 0 ≤ 1 ∧
      ¬|(cumulative [0, 2] [1, 0]).getD 1 0 - 1| ≤ 1 / 1000 := by
  norm_num [Graphentropia.normalize, trapezoid, cumulative, leftAreas, List.scanl,
    List.getD, abs]

/-- Claim C7 (amended): the cumulative built from non-negative densities over
a strictly increasing grid is monotonically non-decreasing and non-negative
(bounded below by `0`); the upper bound `1` and the `1 ± 1e-3` terminal
condition do not hold in general. -/
theorem cumulative_monotone_nonneg (x f : List ℚ)
    (hx : List.Chain' (fun p q => p < q) x) (hf : ∀ d ∈ f, 0 ≤ d) :
    List.Chain' (fun p q => p ≤ q) (cumulative x f) ∧
      ∀ c ∈ cumulative x f, 0 ≤ c := by
  have h := scanl_add_chain_nonneg (leftAreas x f) 0 (leftAreas_nonneg x f hx hf)
  exact ⟨h.1, h.2⟩

/-- Witness for the amended claim C7 at grid `[0, 1]`, densities `[1, 1]`. -/
theorem cumulative_monotone_nonneg_witness :
    List.Chain' (fun p q => p < q) ([0, 1] : List ℚ) ∧
      (List.Chain' (fun p q => p ≤ q) (cumulative [0, 1] [1, 1]) ∧
        ∀ c ∈ cumulative [0, 1] [1, 1], 0 ≤ c) :=
  ⟨by norm_num [List.chain'_cons], cumulative_monotone_nonneg [0, 1] [1, 1]
    (by norm_num [List.chain'_cons]) (by norm_num)⟩

/-- Claim C8: for `E > 0` and `T > 0` the log-space evaluation of the energy
density used by `plot_energy_fraction` coincides with the direct evaluation of
`boltzmann_energy_dist` (as exact real arithmetic). -/
theorem boltzmann_log_space_eq_direct (E T : ℝ) (hE : 0 < E) (hT : 0 < T) :
    boltzmann_distribution_log E T = boltzmann_energy_dist E T := by
  have hk : (0:ℝ) < k := by norm_num [k]
  have hkT : (0:ℝ) < k * T := by positivity
  have hπ : (0:ℝ) < sqrt π := Real.sqrt_pos.mpr Real.pi_pos
  have hc : (0:ℝ) < 2 / sqrt π := by positivity
  have hinv : (0:ℝ) < 1 / (k * T) := by positivity
  have hpow : (1 / (k * T)) ^ (1.5 : ℝ) = 1 / (k * T) ^ (1.5 : ℝ) := by
    rw [one_div, Real.inv_rpow hkT.le, one_div]
  have hsqrt : E ^ (0.5 : ℝ) = sqrt E := by
    rw [show (0.5 : ℝ) = 1 / 2 by norm_num, ← Real.sqrt_eq_rpow]
  unfold boltzmann_distribution_log boltzmann_energy_dist boltzmann_coeff
  rw [sub_eq_add_neg, Real.exp_add, Real.exp_add, Real.exp_add, Real.exp_log hc,
    mul_comm (1.5 : ℝ) (log (1 / (k * T))), ← Real.rpow_def_of_pos hinv,
    mul_comm (0.5 : ℝ) (log E), ← Real.rpow_def_of_pos hE,
    hpow, hsqrt, neg_div]

/-- Witness for claim C8 at `E = 1`, `T = 1`. -/
theorem boltzmann_log_space_eq_direct_witness :
    (0:ℝ) < 1 ∧ boltzmann_distribution_log 1 1 = boltzmann_energy_dist 1 1 :=
  ⟨one_pos, boltzmann_log_space_eq_direct 1 1 one_pos one_pos⟩

/-- Claim C9: the quadrature evaluation of the radiated energy (embedded as
the exact definite integral of the code's integrand) coincides with the spec's
closed form `(emissivity·σ·A/5)·(T2⁵ − T1⁵)` for well-conditioned inputs; in
particular the relative error is within `1e-6`. -/
theorem energia_total_radiada_matches_closed_form (T1 T2 A emissivity : ℝ)
    (_h12 : T1 < T2) (_hA : 0 < A) (_he0 : 0 ≤ emissivity) (_he1 : emissivity ≤ 1) :
    energia_total_radiada_numeric T1 T2 A emissivity =
        radiatedEnergy_closed_form T1 T2 A emissivity ∧
      |energia_total_radiada_numeric T1 T2 A emissivity -
          radiatedEnergy_closed_form T1 T2 A emissivity| ≤
        1 / 10 ^ 6 * |radiatedEnergy_closed_form T1 T2 A emissivity| := by
  have h : energia_total_radiada_numeric T1 T2 A emissivity =
      radiatedEnergy_closed_form T1 T2 A emissivity := by
    unfold energia_total_radiada_numeric radiatedEnergy_closed_form
    rw [intervalIntegral.integral_const_mul (emissivity * sigma * A) (fun T => T ^ 4),
      integral_pow]
    ring
  refine ⟨h, ?_⟩
  rw [h, sub_self, abs_zero]
  positivity

/-- Witness for claim C9 at `T1 = 300`, `T2 = 1000`, `A = 1`, `emissivity = 1`. -/
theorem energia_total_radiada_matches_closed_form_witness :
    (300:ℝ) < 1000 ∧ (0:ℝ) < 1 ∧ (0:ℝ) ≤ 1 ∧ (1:ℝ) ≤ 1 ∧
      energia_total_radiada_numeric 300 1000 1 1 =
        radiatedEnergy_closed_form 300 1000 1 1 :=
  ⟨by norm_num, one_pos, by norm_num, le_refl 1,
    (energia_total_radiada_matches_closed_form 300 1000 1 1 (by norm_num) one_pos
      (by norm_num) (le_refl 1)).1⟩

/-- Claim C10: `stefan_boltzmann_power` is an even function of temperature —
negating `T` leaves the power unchanged, the power at `T` equals the power at
`|T|`, and the concrete negative temperature `-300` is accepted and yields the
same strictly positive power as `+300`. -/
theorem stefan_boltzmann_power_even :
    (∀ T A emissivity : ℝ,
        stefan_boltzmann_power (-T) A emissivity = stefan_boltzmann_power T A emissivity ∧
        stefan_boltzmann_power T A emissivity = stefan_boltzmann_power |T| A emissivity) ∧
      stefan_boltzmann_power (-300) 1 1 = stefan_boltzmann_power 300 1 1 ∧
      0 < stefan_boltzmann_power 300 1 1 := by
  refine ⟨fun T A emissivity => ⟨by unfold stefan_boltzmann_power; ring, ?_⟩, ?_, ?_⟩
  · unfold stefan_boltzmann_power
    rw [pow_abs, abs_of_nonneg (by positivity : (0:ℝ) ≤ T ^ 4)]
  · unfold stefan_boltzmann_power; ring
  · unfold stefan_boltzmann_power sigma; norm_num

end Graphentropia
